import Mathlib

/-!
Shallow embedding of `scripts/check-resources.py`.

The script reads the fixed manifest path `resources/preferences.gresource.xml`,
parses it as XML, collects all `file` elements via `root.findall('.//file')`,
existence-checks each referenced filename joined under `resources`, and exits
with 0 (all present), 1 (manifest missing or unparsable) or 2 (some missing).

Modelling choices:
- A filesystem state is a list of entries, each a path together with an entry
  type (regular file, directory, other).  `os.path.exists` tests only whether
  some entry carries the path, never the type.
- XML parsing is not re-implemented; the program after the parse stage depends
  only on whether `ET.parse` succeeded (yielding a root element tree) or
  raised (yielding an error description `e`).  So the parse outcome is an
  explicit input `Except String Element`.
- `os.path.join('resources', f)` on POSIX returns `f` when `f` is absolute
  and `"resources/" ++ f` otherwise (in particular `"resources/"` for `f = ""`).
- `str.strip` is modelled by `pyStrip`, dropping ASCII whitespace from both
  ends of the character list.
- Process output is the ordered list of lines printed to stdout, the lines
  printed to stderr, and the exit code.
-/

/-- Type of a filesystem entry; `os.path.exists` ignores it. -/
inductive EntryType where
  | file
  | dir
  | other
deriving DecidableEq, Repr

/-- One entry of the filesystem state: an existing path and its type. -/
structure FsEntry where
  path : String
  typ : EntryType
deriving DecidableEq, Repr

/-- `os.path.exists p`: some entry has path `p`, regardless of its type. -/
def existsPath (fs : List FsEntry) (p : String) : Bool :=
  fs.any (fun en => en.path == p)

/-- ASCII whitespace stripped by Python's `str.strip()`. -/
def isSpace (c : Char) : Bool :=
  c == ' ' || c == '\t' || c == '\n' || c == '\r' || c == '\x0b' || c == '\x0c'

/-- Python's `str.strip()`: drop whitespace from both ends. -/
def pyStrip (s : String) : String :=
  String.mk (((s.data.dropWhile isSpace).reverse.dropWhile isSpace).reverse)

/-- Whether a path is absolute on POSIX: it begins with a separator. -/
def isAbsolute (s : String) : Bool :=
  match s.data with
  | [] => false
  | c :: _ => c == '/'

/-- `os.path.join base f` for a non-empty `base` without trailing separator,
as in POSIX `posixpath.join`: an absolute second argument discards the first. -/
def pjoin (base f : String) : String :=
  if isAbsolute f then f else base ++ "/" ++ f

/-- `XML_PATH = os.path.join('resources', 'preferences.gresource.xml')`. -/
def XML_PATH : String := pjoin "resources" "preferences.gresource.xml"

/-- An XML element as consulted by the script: tag, optional text payload,
and child elements in document order.  Attributes are ignored by the code. -/
inductive Element where
  | mk (tag : String) (text : Option String) (children : List Element)

/-- The tag name of an element. -/
def Element.tag : Element → String
  | .mk t _ _ => t

/-- The text payload of an element (`None` in Python becomes `none`). -/
def Element.text : Element → Option String
  | .mk _ x _ => x

/-- The child elements, in document order. -/
def Element.children : Element → List Element
  | .mk _ _ cs => cs

mutual

/-- All proper descendants of an element in document (preorder) order. -/
def descendants : Element → List Element
  | .mk _ _ cs => descendantsList cs

/-- Preorder listing of a forest: each root followed by its descendants. -/
def descendantsList : List Element → List Element
  | [] => []
  | c :: cs => c :: descendants c ++ descendantsList cs

end

/-- `root.findall('.//file')`: every proper descendant of `root` whose tag is
`file`, in document order.  ElementTree's `.//` axis never matches the
context node itself. -/
def findallFile (root : Element) : List Element :=
  (descendants root).filter (fun el => el.tag == "file")

/-- The contribution of one `file` element to the missing list: skip when the
text is `None`; otherwise trim it, join it under `resources`, and record the
trimmed name exactly when the joined path does not exist. -/
def elementMissing (fs : List FsEntry) (el : Element) : List String :=
  match el.text with
  | none => []
  | some t =>
    let fname := pyStrip t
    if existsPath fs (pjoin "resources" fname) then [] else [fname]

/-- The `missing` list accumulated by the loop over `findall('.//file')`. -/
def computeMissing (fs : List FsEntry) (root : Element) : List String :=
  (findallFile root).flatMap (elementMissing fs)

/-- Observable outcome of one run: stdout lines, stderr lines, exit code. -/
structure RunOut where
  stdout : List String
  stderr : List String
  exit : Nat
deriving DecidableEq, Repr

/-- stderr line for a missing manifest. -/
def notFoundMsg : String := "ERROR: " ++ XML_PATH ++ " not found"

/-- stderr line for a parse failure with description `e`. -/
def parseErrMsg (e : String) : String :=
  "ERROR: failed to parse " ++ XML_PATH ++ ": " ++ e

/-- The whole script, given the filesystem state and the parse outcome. -/
def run (fs : List FsEntry) (parseResult : Except String Element) : RunOut :=
  if existsPath fs XML_PATH = false then
    ⟨[], [notFoundMsg], 1⟩
  else
    match parseResult with
    | .error e => ⟨[], [parseErrMsg e], 1⟩
    | .ok root =>
      let missing := computeMissing fs root
      if missing.isEmpty then
        ⟨["All referenced resource files exist."], [], 0⟩
      else
        ⟨"Missing resource files:" :: missing.map (fun m => " - " ++ m), [], 2⟩

/-- A realizable filesystem state: when any path strictly below `resources/`
exists, the directory path `resources/` itself exists.  Every actual POSIX
filesystem state satisfies this (a path `resources/x` can only exist when
`resources` is a (link to a) directory, and then `resources/` exists). -/
def dirClosed (fs : List FsEntry) : Prop :=
  ∀ s : String, existsPath fs ("resources/" ++ s) = true →
    existsPath fs "resources/" = true

/-- The document-order list of referenced (trimmed) names: one per collected
`file` element that carries text, whether or not the joined path exists. -/
def referencedNames (root : Element) : List String :=
  (findallFile root).filterMap (fun el => el.text.map pyStrip)

example : pjoin "resources" "" = "resources/" := by decide
example : XML_PATH = "resources/" ++ "preferences.gresource.xml" := by decide
example : pyStrip "  b.txt \n" = "b.txt" := by decide
example :
    run [⟨XML_PATH, .file⟩, ⟨"resources/", .dir⟩, ⟨"resources/a.txt", .file⟩]
      (Except.ok (.mk "gresources" none
        [.mk "gresource" none
          [.mk "file" (some "a.txt") [], .mk "file" (some "b.txt") []]])) =
    ⟨["Missing resource files:", " - b.txt"], [], 2⟩ := by decide
example :
    run [⟨XML_PATH, .file⟩, ⟨"resources/", .dir⟩, ⟨"resources/a.txt", .file⟩]
      (Except.ok (.mk "gresources" none [.mk "file" (some " a.txt ") []])) =
    ⟨["All referenced resource files exist."], [], 0⟩ := by decide
example : run [] (Except.ok (.mk "gresources" none [])) =
    ⟨[], ["ERROR: resources/preferences.gresource.xml not found"], 1⟩ := by decide

/-! ### Helper lemmas -/

theorem XML_PATH_under_resources :
    XML_PATH = "resources/" ++ "preferences.gresource.xml" := by decide

theorem pjoin_empty : pjoin "resources" "" = "resources/" := by decide

/-- On a realizable filesystem state containing the manifest, the directory
path `resources/` exists. -/
theorem existsPath_resources_dir {fs : List FsEntry} (h0 : dirClosed fs)
    (h1 : existsPath fs XML_PATH = true) :
    existsPath fs "resources/" = true := by
  refine h0 "preferences.gresource.xml" ?_
  rw [← XML_PATH_under_resources]
  exact h1

/-- A path that some entry carries exists, whatever the entry's type. -/
theorem existsPath_of_mem {fs : List FsEntry} {en : FsEntry} (h : en ∈ fs) :
    existsPath fs en.path = true :=
  List.any_eq_true.mpr ⟨en, h, by simp⟩

/-- An element with no text, or with whitespace-only text, contributes nothing
to the missing list once the `resources/` directory is known to exist. -/
theorem elementMissing_blank {fs : List FsEntry} {el : Element}
    (hres : existsPath fs "resources/" = true)
    (hel : el.text = none ∨ ∃ t, el.text = some t ∧ pyStrip t = "") :
    elementMissing fs el = [] := by
  rcases hel with h | ⟨t, ht, hblank⟩
  · simp [elementMissing, h]
  · simp [elementMissing, ht, hblank, pjoin_empty, hres]

/-- The loop's behaviour when the manifest is present and parsed: success. -/
theorem run_ok_empty {fs : List FsEntry} {root : Element}
    (h1 : existsPath fs XML_PATH = true)
    (h2 : computeMissing fs root = []) :
    run fs (Except.ok root) = ⟨["All referenced resource files exist."], [], 0⟩ := by
  simp [run, h1, h2]

/-- The loop's behaviour when the manifest is present and parsed: report. -/
theorem run_ok_report {fs : List FsEntry} {root : Element}
    (h1 : existsPath fs XML_PATH = true)
    (h2 : computeMissing fs root ≠ []) :
    run fs (Except.ok root) =
      ⟨"Missing resource files:" ::
        (computeMissing fs root).map (fun m => " - " ++ m), [], 2⟩ := by
  simp [run, h1, List.isEmpty_iff, h2]

/-- `run` consults the parsed tree only through the missing list. -/
theorem run_ok_congr {fs : List FsEntry} {r₁ r₂ : Element}
    (h : computeMissing fs r₁ = computeMissing fs r₂) :
    run fs (Except.ok r₁) = run fs (Except.ok r₂) := by
  by_cases hx : existsPath fs XML_PATH = false
  · simp [run, hx]
  · simp only [run, if_neg hx]
    rw [h]

/-- The missing list is the document-order referenced-name list filtered to
the names whose joined path does not exist. -/
theorem computeMissing_eq_filter (fs : List FsEntry) (root : Element) :
    computeMissing fs root =
      (referencedNames root).filter
        (fun f => !existsPath fs (pjoin "resources" f)) := by
  unfold computeMissing referencedNames
  induction findallFile root with
  | nil => rfl
  | cons el l ih =>
    rw [List.flatMap_cons, ih]
    rcases hx : el.text with _ | t
    · simp [elementMissing, hx]
    · by_cases hp : existsPath fs (pjoin "resources" (pyStrip t)) = true
      · simp [elementMissing, hx, hp]
      · have hp' : existsPath fs (pjoin "resources" (pyStrip t)) = false :=
          Bool.eq_false_iff.mpr hp
        simp [elementMissing, hx, hp']

/-- `c` lies strictly below `p` in the element tree (any depth). -/
inductive ProperDescendant : Element → Element → Prop
  | child {c p : Element} : c ∈ p.children → ProperDescendant c p
  | step {c m p : Element} : m ∈ p.children → ProperDescendant c m →
      ProperDescendant c p

theorem mem_descendantsList_of_mem {c : Element} {cs : List Element}
    (h : c ∈ cs) : c ∈ descendantsList cs := by
  induction cs with
  | nil => cases h
  | cons a l ih =>
    simp only [descendantsList]
    rcases List.mem_cons.mp h with rfl | h
    · exact List.mem_cons_self ..
    · exact List.mem_cons_of_mem _ (List.mem_append_right _ (ih h))

theorem mem_descendantsList_of_below {el m : Element} {cs : List Element}
    (hm : m ∈ cs) (h : el ∈ descendants m) : el ∈ descendantsList cs := by
  induction cs with
  | nil => cases hm
  | cons a l ih =>
    simp only [descendantsList]
    rcases List.mem_cons.mp hm with rfl | hm
    · exact List.mem_cons_of_mem _ (List.mem_append_left _ h)
    · exact List.mem_cons_of_mem _ (List.mem_append_right _ (ih hm))

theorem descendants_eq (p : Element) :
    descendants p = descendantsList p.children := by
  rcases p with ⟨t, x, cs⟩
  rfl

/-- Every proper descendant occurs in the preorder listing. -/
theorem mem_descendants_of_properDescendant {el p : Element}
    (h : ProperDescendant el p) : el ∈ descendants p := by
  induction h
  all_goals rw [descendants_eq]
  · exact mem_descendantsList_of_mem (by assumption)
  · exact mem_descendantsList_of_below (by assumption) (by assumption)

mutual

/-- Everything in the preorder listing is a proper descendant. -/
theorem properDescendant_of_mem_descendants (p : Element) (el : Element)
    (h : el ∈ descendants p) : ProperDescendant el p :=
  match p with
  | .mk t x cs => by
    have := descendantsList_sound cs el h
    rcases this with ⟨c, hc, rfl | hbelow⟩
    · exact ProperDescendant.child hc
    · exact ProperDescendant.step hc hbelow

theorem descendantsList_sound (cs : List Element) (el : Element)
    (h : el ∈ descendantsList cs) :
    ∃ c ∈ cs, el = c ∨ ProperDescendant el c :=
  match cs with
  | [] => by simp [descendantsList] at h
  | c :: cs => by
    simp only [descendantsList] at h
    rcases List.mem_cons.mp h with rfl | h
    · exact ⟨el, List.mem_cons_self .., Or.inl rfl⟩
    · rcases List.mem_append.mp h with h | h
      · exact ⟨c, List.mem_cons_self ..,
          Or.inr (properDescendant_of_mem_descendants c el h)⟩
      · obtain ⟨d, hd, hcase⟩ := descendantsList_sound cs el h
        exact ⟨d, List.mem_cons_of_mem _ hd, hcase⟩

end

/-- The preorder listing contains exactly the proper descendants. -/
theorem mem_descendants_iff {el p : Element} :
    el ∈ descendants p ↔ ProperDescendant el p :=
  ⟨properDescendant_of_mem_descendants p el, mem_descendants_of_properDescendant⟩

/-- An element that contributes a name puts that name into the missing list. -/
theorem mem_computeMissing_of_contrib {fs : List FsEntry} {root : Element}
    {el : Element} {f : String} (hel : el ∈ findallFile root)
    (hc : f ∈ elementMissing fs el) : f ∈ computeMissing fs root :=
  List.mem_flatMap.mpr ⟨el, hel, hc⟩

/-- A `file` element with text whose joined path is absent makes the missing
list non-empty. -/
theorem computeMissing_ne_nil {fs : List FsEntry} {root : Element}
    (h : ∃ el ∈ findallFile root, ∃ t, el.text = some t ∧
      existsPath fs (pjoin "resources" (pyStrip t)) = false) :
    computeMissing fs root ≠ [] := by
  obtain ⟨el, hel, t, ht, habs⟩ := h
  have hc : pyStrip t ∈ elementMissing fs el := by
    simp [elementMissing, ht, habs]
  exact List.ne_nil_of_mem (mem_computeMissing_of_contrib hel hc)

/-- Left-cancellation for string concatenation. -/
theorem string_append_cancel {s a b : String} (h : s ++ a = s ++ b) : a = b := by
  have hd := congrArg String.data h
  rw [String.data_append, String.data_append] at hd
  exact String.ext (List.append_cancel_left hd)

/-- The report's header line is never one of its bullet lines. -/
theorem header_ne_bullet (f : String) :
    "Missing resource files:" ≠ " - " ++ f := by
  intro h
  have hd := congrArg String.data h
  rw [String.data_append] at hd
  simp at hd

/-- The success line is never a bullet line. -/
theorem success_ne_bullet (f : String) :
    "All referenced resource files exist." ≠ " - " ++ f := by
  intro h
  have hd := congrArg String.data h
  rw [String.data_append] at hd
  simp at hd

/-- Counting a bullet in the mapped report equals counting the name. -/
theorem count_bullet_map (l : List String) (f : String) :
    (l.map (fun m => " - " ++ m)).count (" - " ++ f) = l.count f :=
  List.count_map_of_injective _ _ (fun _ _ h => string_append_cancel h) _

/-- Retyping every entry as a plain file leaves path existence unchanged. -/
theorem existsPath_retype (fs : List FsEntry) (p : String) :
    existsPath (fs.map (fun en => ⟨en.path, EntryType.file⟩)) p =
      existsPath fs p := by
  simp [existsPath, List.any_map, Function.comp_def]

/-- The missing list depends on the filesystem only through path existence. -/
theorem computeMissing_congr {fs₁ fs₂ : List FsEntry} (root : Element)
    (h : ∀ p, existsPath fs₁ p = existsPath fs₂ p) :
    computeMissing fs₁ root = computeMissing fs₂ root := by
  unfold computeMissing
  induction findallFile root with
  | nil => rfl
  | cons el l ih =>
    rw [List.flatMap_cons, List.flatMap_cons, ih]
    rcases hx : el.text with _ | t
    · simp [elementMissing, hx]
    · simp [elementMissing, hx, h]

/-! ### Claims -/

/-- C1 (counterexample to the stated bullet format): with `a.txt` present and
`b.txt` absent, the report bullet line is `" - b.txt"` (the hyphen is printed
as a separate argument, so a space precedes it), not `"- b.txt"` as the claim
states. -/
theorem bullet_format_counterexample :
    (run [⟨XML_PATH, .file⟩, ⟨"resources/", .dir⟩, ⟨"resources/a.txt", .file⟩]
      (Except.ok (.mk "gresources" none
        [.mk "file" (some "a.txt") [], .mk "file" (some "b.txt") []]))).stdout =
      ["Missing resource files:", " - b.txt"] ∧
    (run [⟨XML_PATH, .file⟩, ⟨"resources/", .dir⟩, ⟨"resources/a.txt", .file⟩]
      (Except.ok (.mk "gresources" none
        [.mk "file" (some "a.txt") [], .mk "file" (some "b.txt") []]))).stdout ≠
      ["Missing resource files:", "- b.txt"] := by
  exact ⟨by decide, by decide⟩

/-- C1 (amended): when the manifest exists, parses, and at least one
referenced name has no entry at its joined path, the process prints the
header `Missing resource files:` followed by one line per missing name of
the form `" - "` then the name, prints nothing to stderr, and exits with 2. -/
theorem run_missing_report (fs : List FsEntry) (root : Element)
    (h1 : existsPath fs XML_PATH = true)
    (h2 : ∃ el ∈ findallFile root, ∃ t, el.text = some t ∧
      existsPath fs (pjoin "resources" (pyStrip t)) = false) :
    run fs (Except.ok root) =
      ⟨"Missing resource files:" ::
        (computeMissing fs root).map (fun m => " - " ++ m), [], 2⟩ :=
  run_ok_report h1 (computeMissing_ne_nil h2)

/-- C1 witness: the amended theorem applied to a concrete state. -/
theorem run_missing_report_witness :
    run [⟨XML_PATH, .file⟩, ⟨"resources/", .dir⟩, ⟨"resources/a.txt", .file⟩]
      (Except.ok (.mk "gresources" none
        [.mk "file" (some "a.txt") [], .mk "file" (some "b.txt") []])) =
      ⟨["Missing resource files:", " - b.txt"], [], 2⟩ := by
  have h := run_missing_report
    [⟨XML_PATH, .file⟩, ⟨"resources/", .dir⟩, ⟨"resources/a.txt", .file⟩]
    (.mk "gresources" none
      [.mk "file" (some "a.txt") [], .mk "file" (some "b.txt") []])
    (by decide)
    ⟨.mk "file" (some "b.txt") [], List.Mem.tail _ (List.Mem.head _),
      "b.txt", rfl, by decide⟩
  rw [h]
  decide

/-- C2: when the manifest exists (on a realizable filesystem state), parses,
and every referenced name has an entry at its joined path — vacuously so for
a manifest with no `file` elements — the process prints the success line and
exits with 0. -/
theorem run_all_present (fs : List FsEntry) (root : Element)
    (h0 : dirClosed fs) (h1 : existsPath fs XML_PATH = true)
    (h2 : ∀ el ∈ findallFile root, ∀ t, el.text = some t → pyStrip t ≠ "" →
      existsPath fs (pjoin "resources" (pyStrip t)) = true) :
    run fs (Except.ok root) =
      ⟨["All referenced resource files exist."], [], 0⟩ := by
  refine run_ok_empty h1 ?_
  have hall : ∀ el ∈ findallFile root, elementMissing fs el = [] := by
    intro el hel
    rcases hx : el.text with _ | t
    · simp [elementMissing, hx]
    · by_cases hb : pyStrip t = ""
      · exact elementMissing_blank (existsPath_resources_dir h0 h1)
          (Or.inr ⟨t, hx, hb⟩)
      · simp [elementMissing, hx, h2 el hel t hx hb]
  unfold computeMissing
  exact List.flatMap_eq_nil_iff.mpr hall

/-- C2 witness: the zero-`file`-element manifest succeeds vacuously. -/
theorem run_all_present_witness :
    run [⟨XML_PATH, .file⟩, ⟨"resources/", .dir⟩]
      (Except.ok (.mk "gresources" none [])) =
      ⟨["All referenced resource files exist."], [], 0⟩ := by
  refine run_all_present _ _ (fun s _ => by decide) (by decide) ?_
  intro el hel
  have hnil : findallFile (Element.mk "gresources" none []) = [] := rfl
  rw [hnil] at hel
  cases hel

/-- C3: when no entry exists at the fixed manifest path, the process prints
nothing to stdout, emits the not-found diagnostic on stderr, and exits with 1,
with the same outcome whatever the parse stage would have produced. -/
theorem run_manifest_absent (fs : List FsEntry) (pr : Except String Element)
    (h : existsPath fs XML_PATH = false) :
    run fs pr = ⟨[], [notFoundMsg], 1⟩ := by
  simp [run, h]

/-- C3 witness: the empty filesystem state. -/
theorem run_manifest_absent_witness :
    run [] (Except.ok (.mk "gresources" none [])) =
      ⟨[], [notFoundMsg], 1⟩ :=
  run_manifest_absent [] (Except.ok (.mk "gresources" none [])) (by decide)

/-- C4: when the manifest exists but parsing fails with description `e`, the
process prints nothing to stdout, emits on stderr the parse diagnostic that
carries `e`, and exits with 1 — for every filesystem state, so no referenced
file influences the outcome. -/
theorem run_parse_error (fs : List FsEntry) (e : String)
    (h1 : existsPath fs XML_PATH = true) :
    run fs (Except.error e) = ⟨[], [parseErrMsg e], 1⟩ := by
  simp [run, h1]

/-- C4 witness: a concrete unparsable manifest. -/
theorem run_parse_error_witness :
    run [⟨XML_PATH, .file⟩] (Except.error "mismatched tag: line 3") =
      ⟨[], [parseErrMsg "mismatched tag: line 3"], 1⟩ :=
  run_parse_error [⟨XML_PATH, .file⟩] "mismatched tag: line 3" (by decide)

/-- C5: a collected `file` element with no text, or with whitespace-only
text, contributes no entry to the missing list, and a parsed manifest with
such an element produces exactly the output and exit code of the same
manifest without it (on a realizable state where the manifest exists). -/
theorem run_blank_file_element (fs : List FsEntry) (el : Element)
    (l₁ l₂ : List Element) (root₁ root₂ : Element)
    (h0 : dirClosed fs) (h1 : existsPath fs XML_PATH = true)
    (hel : el.text = none ∨ ∃ t, el.text = some t ∧ pyStrip t = "")
    (hf1 : findallFile root₁ = l₁ ++ l₂)
    (hf2 : findallFile root₂ = l₁ ++ el :: l₂) :
    elementMissing fs el = [] ∧
      computeMissing fs root₂ = computeMissing fs root₁ ∧
      run fs (Except.ok root₂) = run fs (Except.ok root₁) := by
  have hblank := elementMissing_blank (existsPath_resources_dir h0 h1) hel
  have hcm : computeMissing fs root₂ = computeMissing fs root₁ := by
    unfold computeMissing
    rw [hf1, hf2, List.flatMap_append, List.flatMap_append,
      List.flatMap_cons, hblank]
    simp
  exact ⟨hblank, hcm, run_ok_congr hcm⟩

/-- C5 witness: appending a whitespace-only `file` element changes nothing. -/
theorem run_blank_file_element_witness :
    elementMissing [⟨XML_PATH, .file⟩, ⟨"resources/", .dir⟩,
        ⟨"resources/a.txt", .file⟩] (.mk "file" (some "  ") []) = [] ∧
      computeMissing [⟨XML_PATH, .file⟩, ⟨"resources/", .dir⟩,
          ⟨"resources/a.txt", .file⟩]
        (.mk "gresources" none
          [.mk "file" (some "a.txt") [], .mk "file" (some "  ") []]) =
      computeMissing [⟨XML_PATH, .file⟩, ⟨"resources/", .dir⟩,
          ⟨"resources/a.txt", .file⟩]
        (.mk "gresources" none [.mk "file" (some "a.txt") []]) ∧
      run [⟨XML_PATH, .file⟩, ⟨"resources/", .dir⟩,
          ⟨"resources/a.txt", .file⟩]
        (Except.ok (.mk "gresources" none
          [.mk "file" (some "a.txt") [], .mk "file" (some "  ") []])) =
      run [⟨XML_PATH, .file⟩, ⟨"resources/", .dir⟩,
          ⟨"resources/a.txt", .file⟩]
        (Except.ok (.mk "gresources" none [.mk "file" (some "a.txt") []])) :=
  run_blank_file_element _ (.mk "file" (some "  ") [])
    [.mk "file" (some "a.txt") []] [] _ _
    (fun s _ => by decide) (by decide)
    (Or.inr ⟨"  ", rfl, by decide⟩) rfl rfl

/-- C6 (counterexample to "no `file` element anywhere is overlooked"): in the
parsed document whose root element itself has tag `file` and text `b.txt`,
the traversal collects nothing — `findall` with the `.//` axis never matches
the root — so the absent `b.txt` is never existence-checked and the process
exits 0. -/
theorem findall_root_overlooked_counterexample :
    (Element.mk "file" (some "b.txt") []).tag = "file" ∧
    findallFile (.mk "file" (some "b.txt") []) = [] ∧
    run [⟨XML_PATH, .file⟩, ⟨"resources/", .dir⟩]
      (Except.ok (.mk "file" (some "b.txt") [])) =
      ⟨["All referenced resource files exist."], [], 0⟩ :=
  ⟨rfl, rfl, by decide⟩

/-- C6 (amended): the traversal collects exactly the elements of tag `file`
that lie strictly below the root, at every nesting depth — the root element
itself is never collected — and every collected element carrying text whose
joined path is absent lands in the missing list. -/
theorem findall_collects_proper_descendants (fs : List FsEntry)
    (el root : Element) :
    (el ∈ findallFile root ↔ ProperDescendant el root ∧ el.tag = "file") ∧
    (el ∈ findallFile root → ∀ t, el.text = some t →
      existsPath fs (pjoin "resources" (pyStrip t)) = false →
      pyStrip t ∈ computeMissing fs root) := by
  constructor
  · simp [findallFile, List.mem_filter, mem_descendants_iff]
  · intro hel t ht habs
    refine mem_computeMissing_of_contrib hel ?_
    simp [elementMissing, ht, habs]

/-- C6 witness: a depth-one `file` element is collected and checked. -/
theorem findall_collects_proper_descendants_witness :
    (Element.mk "file" (some "c.txt") []) ∈
      findallFile (.mk "gresources" none [.mk "file" (some "c.txt") []]) ∧
    "c.txt" ∈ computeMissing [⟨XML_PATH, .file⟩]
      (.mk "gresources" none [.mk "file" (some "c.txt") []]) := by
  have hm := (findall_collects_proper_descendants [⟨XML_PATH, .file⟩]
      (.mk "file" (some "c.txt") [])
      (.mk "gresources" none [.mk "file" (some "c.txt") []])).1.mpr
    ⟨ProperDescendant.child (List.Mem.head _), rfl⟩
  refine ⟨hm, ?_⟩
  exact (findall_collects_proper_descendants [⟨XML_PATH, .file⟩]
      (.mk "file" (some "c.txt") [])
      (.mk "gresources" none [.mk "file" (some "c.txt") []])).2
    hm "c.txt" rfl (by decide)

/-- C7: the missing list is the document-order list of referenced names
restricted to those whose joined path is absent — so multiple missing names
are reported in manifest document order — and the report prints them in
exactly that order, one bullet each, after the header. -/
theorem missing_document_order (fs : List FsEntry) (root : Element)
    (h1 : existsPath fs XML_PATH = true) :
    computeMissing fs root =
      (referencedNames root).filter
        (fun f => !existsPath fs (pjoin "resources" f)) ∧
    (computeMissing fs root ≠ [] →
      (run fs (Except.ok root)).stdout =
        "Missing resource files:" ::
          (computeMissing fs root).map (fun m => " - " ++ m)) := by
  refine ⟨computeMissing_eq_filter fs root, fun h2 => ?_⟩
  rw [run_ok_report h1 h2]

/-- C7 witness: two absent names are reported in document order. -/
theorem missing_document_order_witness :
    computeMissing [⟨XML_PATH, .file⟩, ⟨"resources/", .dir⟩]
      (.mk "gresources" none
        [.mk "file" (some "b.txt") [], .mk "file" (some "c.txt") []]) =
      ["b.txt", "c.txt"] ∧
    (run [⟨XML_PATH, .file⟩, ⟨"resources/", .dir⟩]
      (Except.ok (.mk "gresources" none
        [.mk "file" (some "b.txt") [], .mk "file" (some "c.txt") []]))).stdout =
      "Missing resource files:" ::
        (computeMissing [⟨XML_PATH, .file⟩, ⟨"resources/", .dir⟩]
          (.mk "gresources" none
            [.mk "file" (some "b.txt") [], .mk "file" (some "c.txt") []])).map
          (fun m => " - " ++ m) :=
  ⟨by decide,
    (missing_document_order [⟨XML_PATH, .file⟩, ⟨"resources/", .dir⟩]
      (.mk "gresources" none
        [.mk "file" (some "b.txt") [], .mk "file" (some "c.txt") []])
      (by decide)).2 (by decide)⟩

/-- C8: every run exits with 0, 1 or 2, and the three outcomes are mutually
exclusive and exhaustive: 0 exactly when the manifest path exists, parsing
succeeded and the missing list is empty; 1 exactly when the manifest path is
absent or parsing failed; 2 exactly when the manifest path exists, parsing
succeeded and the missing list is non-empty. -/
theorem run_exit_codes (fs : List FsEntry) (pr : Except String Element) :
    ((run fs pr).exit = 0 ∨ (run fs pr).exit = 1 ∨ (run fs pr).exit = 2) ∧
    ((run fs pr).exit = 0 ↔ existsPath fs XML_PATH = true ∧
      ∃ root, pr = Except.ok root ∧ computeMissing fs root = []) ∧
    ((run fs pr).exit = 1 ↔ existsPath fs XML_PATH = false ∨
      ∃ e, pr = Except.error e) ∧
    ((run fs pr).exit = 2 ↔ existsPath fs XML_PATH = true ∧
      ∃ root, pr = Except.ok root ∧ computeMissing fs root ≠ []) := by
  by_cases hx : existsPath fs XML_PATH = false
  · simp [run, hx]
  · have hx' : existsPath fs XML_PATH = true := by
      rcases Bool.eq_false_or_eq_true (existsPath fs XML_PATH) with h | h
      · exact h
      · exact absurd h hx
    rcases pr with e | root
    · simp [run, hx']
    · by_cases hm : computeMissing fs root = []
      · simp [run, hx', hm]
      · simp [run, hx', hm, List.isEmpty_iff]

/-- C8 witness: the disjunction at a concrete state. -/
theorem run_exit_codes_witness :
    (run [] (Except.ok (.mk "gresources" none []))).exit = 0 ∨
    (run [] (Except.ok (.mk "gresources" none []))).exit = 1 ∨
    (run [] (Except.ok (.mk "gresources" none []))).exit = 2 :=
  (run_exit_codes [] (Except.ok (.mk "gresources" none []))).1

/-- C9: occurrences of an absent name are neither merged nor dropped: the
missing list holds the name once per `file` element referencing it, and the
report holds one bullet line per occurrence in the missing list. -/
theorem missing_no_dedup (fs : List FsEntry) (root : Element) (f : String)
    (hab : existsPath fs (pjoin "resources" f) = false) :
    (computeMissing fs root).count f = (referencedNames root).count f ∧
    (existsPath fs XML_PATH = true →
      ((run fs (Except.ok root)).stdout).count (" - " ++ f) =
        (computeMissing fs root).count f) := by
  have hcnt : (computeMissing fs root).count f =
      (referencedNames root).count f := by
    rw [computeMissing_eq_filter]
    exact List.count_filter (by simp [hab])
  refine ⟨hcnt, fun h1 => ?_⟩
  by_cases hm : computeMissing fs root = []
  · rw [run_ok_empty h1 hm, hm]
    have hne : ("All referenced resource files exist." == " - " ++ f) = false :=
      beq_eq_false_iff_ne.mpr (success_ne_bullet f)
    simp [List.count_cons, hne]
  · rw [run_ok_report h1 hm]
    have hne : ("Missing resource files:" == " - " ++ f) = false :=
      beq_eq_false_iff_ne.mpr (header_ne_bullet f)
    simp [List.count_cons, hne, count_bullet_map]

/-- C9 witness: a doubly referenced absent name is listed and printed twice. -/
theorem missing_no_dedup_witness :
    (computeMissing [⟨XML_PATH, .file⟩, ⟨"resources/", .dir⟩]
      (.mk "gresources" none
        [.mk "file" (some "dup.txt") [],
          .mk "file" (some "dup.txt") []])).count "dup.txt" = 2 ∧
    (run [⟨XML_PATH, .file⟩, ⟨"resources/", .dir⟩]
      (Except.ok (.mk "gresources" none
        [.mk "file" (some "dup.txt") [],
          .mk "file" (some "dup.txt") []]))).stdout.count (" - " ++ "dup.txt") =
      (computeMissing [⟨XML_PATH, .file⟩, ⟨"resources/", .dir⟩]
        (.mk "gresources" none
          [.mk "file" (some "dup.txt") [],
            .mk "file" (some "dup.txt") []])).count "dup.txt" :=
  ⟨by decide,
    (missing_no_dedup [⟨XML_PATH, .file⟩, ⟨"resources/", .dir⟩]
      (.mk "gresources" none
        [.mk "file" (some "dup.txt") [], .mk "file" (some "dup.txt") []])
      "dup.txt" (by decide)).2 (by decide)⟩

/-- C10: existence checks are blind to entry type: retyping every entry as a
plain file changes no outcome; a directory entry at a referenced joined path
keeps the name out of the missing list; and a directory entry at the manifest
path passes the first check, so a failing parse then yields exit 1 through
the parse-error branch. -/
theorem existence_checks_type_blind (fs : List FsEntry)
    (pr : Except String Element) (el : Element) (t e : String) :
    run (fs.map (fun en => ⟨en.path, EntryType.file⟩)) pr = run fs pr ∧
    (el.text = some t →
      (⟨pjoin "resources" (pyStrip t), EntryType.dir⟩ : FsEntry) ∈ fs →
      elementMissing fs el = []) ∧
    ((⟨XML_PATH, EntryType.dir⟩ : FsEntry) ∈ fs →
      run fs (Except.error e) = ⟨[], [parseErrMsg e], 1⟩) := by
  refine ⟨?_, ?_, ?_⟩
  · have hp : ∀ p,
        existsPath (fs.map fun en => ⟨en.path, EntryType.file⟩) p =
          existsPath fs p :=
      existsPath_retype fs
    by_cases hx : existsPath fs XML_PATH = false
    · simp [run, hp, hx]
    · rcases pr with e' | root
      · simp [run, hp]
      · simp only [run, hp, if_neg hx]
        rw [computeMissing_congr root hp]
  · intro ht hmem
    have hex := existsPath_of_mem hmem
    simp [elementMissing, ht, hex]
  · intro hmem
    have hx : existsPath fs XML_PATH = true := existsPath_of_mem hmem
    simp [run, hx]

/-- C10 witness: a directory at the manifest path and at a referenced path. -/
theorem existence_checks_type_blind_witness :
    elementMissing [⟨XML_PATH, .dir⟩, ⟨"resources/d", .dir⟩]
      (.mk "file" (some "d") []) = [] ∧
    run [⟨XML_PATH, .dir⟩, ⟨"resources/d", .dir⟩] (Except.error "is a directory") =
      ⟨[], [parseErrMsg "is a directory"], 1⟩ :=
  ⟨(existence_checks_type_blind [⟨XML_PATH, .dir⟩, ⟨"resources/d", .dir⟩]
      (Except.error "is a directory") (.mk "file" (some "d") [])
      "d" "is a directory").2.1 rfl (by decide),
    (existence_checks_type_blind [⟨XML_PATH, .dir⟩, ⟨"resources/d", .dir⟩]
      (Except.error "is a directory") (.mk "file" (some "d") [])
      "d" "is a directory").2.2 (by decide)⟩
